import Mathlib

/-!
Shallow embedding of the data-preparation pipeline `load_data` of
`src/wricef_visualizer.py` (a streamlit/pandas WRICEF dashboard).

A pandas DataFrame is modelled column-wise: a table is a list of
(column name, list of cells) pairs, in column order.  A cell is either
absent (NaN/NaT), a string, a number (modelled over Int; nothing in the
pipeline depends on fractional values), or a datetime (modelled at day
resolution as a proleptic-Gregorian ordinal day number, as in
Python's `date.toordinal`).

The pipeline steps of `load_data` are embedded one for one:
  * `pd.to_datetime(col, errors=coerce)`  →  `List.map coerceDate`
    applied to each of the 16 names of `date_columns` present in the
    table (string parsing is modelled for the ISO `YYYY-MM-DD` form);
  * `pd.to_numeric(col, errors=coerce).fillna(0)` → `List.map coerceNumFill`
    for the 5 names of `numeric_columns` present;
  * `col.fillna(Unknown).astype(str)` → `List.map catClean` for the 9
    names of `categorical_columns` present;
  * the derived-metric assignments (lines 62-71) → `derive`, where a
    column lookup of a missing name raises (`Except.error`), exactly as
    `df[missing]` raises `KeyError`;
  * the surrounding `try/except` that reports the error with `st.error`
    and returns an empty `pd.DataFrame()` → `load_data` on an
    `Except String Table` input (the result of the excel read).
-/

namespace Wricef

/-- One cell of the table: absent (NaN/NaT), text, a number, or a
datetime (day-resolution ordinal). -/
inductive Cell where
  | na : Cell
  | str : String → Cell
  | int : Int → Cell
  | date : Int → Cell
deriving DecidableEq, Repr

/-! ### Calendar-date parsing (model of `pd.to_datetime(errors=coerce)`)

Strings of the ISO form `YYYY-MM-DD` are parsed to an ordinal day
number; cells that are already datetimes parse to themselves; anything
else fails (becomes absent).  The pandas parser accepts more string
formats, but every claim quantifies over parse outcomes, so the exact
grammar is immaterial; the ISO subset is enough to evaluate the spec's
concrete scenarios. -/

def digitVal (c : Char) : Option Nat :=
  if c.isDigit then some (c.toNat - 48) else none

def parseDigitsAux : List Char → Nat → Option Nat
  | [], acc => some acc
  | c :: cs, acc =>
    match digitVal c with
    | some d => parseDigitsAux cs (10 * acc + d)
    | none => none

/-- Parse a nonempty all-digit character list as a natural number. -/
def parseDigits : List Char → Option Nat
  | [] => none
  | cs => parseDigitsAux cs 0

/-- Split a character list on the dash character. -/
def splitDash : List Char → List (List Char)
  | [] => [[]]
  | c :: cs =>
    let r := splitDash cs
    if c = ('-') then [] :: r
    else
      match r with
      | [] => [[c]]
      | g :: gs => (c :: g) :: gs

def isLeap (y : Nat) : Bool :=
  (y % 4 = 0 && y % 100 ≠ 0) || y % 400 = 0

def daysInMonth (y m : Nat) : Nat :=
  if m = 2 then (if isLeap y then 29 else 28)
  else if m = 4 ∨ m = 6 ∨ m = 9 ∨ m = 11 then 30
  else 31

/-- Days in the months strictly before month `m` of year `y`. -/
def daysBeforeMonth (y m : Nat) : Nat :=
  let base :=
    if m = 1 then 0 else if m = 2 then 31 else if m = 3 then 59
    else if m = 4 then 90 else if m = 5 then 120 else if m = 6 then 151
    else if m = 7 then 181 else if m = 8 then 212 else if m = 9 then 243
    else if m = 10 then 273 else if m = 11 then 304 else 334
  if 2 < m ∧ isLeap y then base + 1 else base

/-- Days in the years strictly before year `y` (proleptic Gregorian). -/
def daysBeforeYear (y : Nat) : Nat :=
  let a := y - 1
  365 * a + a / 4 - a / 100 + a / 400

/-- Ordinal day number of the calendar date `y-m-d`
(1-1-1 has ordinal 1, like Python's `date.toordinal`). -/
def toOrdinal (y m d : Nat) : Nat :=
  daysBeforeYear y + daysBeforeMonth y m + d

/-- Parse an ISO `YYYY-MM-DD` string into an ordinal day number. -/
def parseISO (s : String) : Option Int :=
  match splitDash s.data with
  | [ys, ms, ds] =>
    if ys.length = 4 ∧ ms.length = 2 ∧ ds.length = 2 then
      match parseDigits ys, parseDigits ms, parseDigits ds with
      | some y, some m, some d =>
        if 1 ≤ m ∧ m ≤ 12 ∧ 1 ≤ d ∧ d ≤ daysInMonth y m then
          some (Int.ofNat (toOrdinal y m d))
        else none
      | _, _, _ => none
    else none
  | _ => none

/-- `pd.to_datetime(x, errors=coerce)` per cell: a datetime stays, an
ISO string parses, everything else yields `none` (becomes NaT). -/
def parseDate (c : Cell) : Option Int :=
  match c with
  | Cell.date d => some d
  | Cell.str s => parseISO s
  | _ => none

/-- A cell of a date column after coercion: parsed date or absent. -/
def coerceDate (c : Cell) : Cell :=
  match parseDate c with
  | some d => Cell.date d
  | none => Cell.na

/-! ### Numeric coercion (model of `pd.to_numeric(errors=coerce)`) -/

/-- Parse an optionally dash-signed all-digit string as an integer. -/
def parseSignedInt (s : String) : Option Int :=
  match s.data with
  | c :: cs =>
    if c = ('-') then (parseDigits cs).map (fun n => -(Int.ofNat n))
    else (parseDigits (c :: cs)).map Int.ofNat
  | [] => none

/-- `pd.to_numeric(x, errors=coerce)` per cell: a number stays, a
numeric string parses, everything else yields `none` (becomes NaN). -/
def toNumeric (c : Cell) : Option Int :=
  match c with
  | Cell.int n => some n
  | Cell.str s => parseSignedInt s
  | _ => none

/-- A cell of a numeric column after `to_numeric(...).fillna(0)`:
always a number, `0` where coercion failed or the cell was absent. -/
def coerceNumFill (c : Cell) : Cell :=
  Cell.int ((toNumeric c).getD 0)

/-! ### Categorical cleaning (model of `fillna(Unknown).astype(str)`) -/

/-- `str(x)` for a non-absent cell. -/
def cellStr (c : Cell) : String :=
  match c with
  | Cell.str s => s
  | Cell.int n => toString n
  | Cell.date d => toString d
  | Cell.na => "nan"

/-- A cell of a categorical column after cleaning: absent becomes the
literal string `Unknown`, every value is normalized to text. -/
def catClean (c : Cell) : Cell :=
  match c with
  | Cell.na => Cell.str "Unknown"
  | c => Cell.str (cellStr c)

/-! ### The table and its pandas-style operations -/

/-- A DataFrame: named columns in order, each a list of cells. -/
abbrev Table : Type := List (String × List Cell)

/-- `df[name]`: the first column with the given name, if any. -/
def findCol : Table → String → Option (List Cell)
  | [], _ => none
  | p :: t, m => if p.1 = m then some p.2 else findCol t m

/-- `name in df.columns`. -/
def hasCol (t : Table) (n : String) : Bool :=
  (findCol t n).isSome

/-- `df[name] = df[name].map f` guarded by `if name in df.columns`:
maps `f` over every column having that name, leaves the rest alone. -/
def mapColIfPresent (name : String) (f : Cell → Cell) (t : Table) : Table :=
  t.map (fun p => if p.1 = name then (p.1, p.2.map f) else p)

/-- `df[name] = vs`: replaces the column in place when the name exists,
otherwise appends a new column at the end (pandas assignment). -/
def assign (t : Table) (name : String) (vs : List Cell) : Table :=
  if hasCol t name then
    t.map (fun p => if p.1 = name then (p.1, vs) else p)
  else t ++ [(name, vs)]

/-- Apply a per-cell coercion to every listed column that is present
(one `for col in ...: if col in df.columns: df[col] = ...` loop). -/
def applyFold (f : Cell → Cell) (l : List String) (t : Table) : Table :=
  l.foldl (fun acc c => mapColIfPresent c f acc) t

/-- `len(df)`: the row count (length of the first column; 0 if none). -/
def nRows (t : Table) : Nat :=
  match t with
  | [] => 0
  | p :: _ => p.2.length

/-- The table is rectangular with `n` rows. -/
def Rect (t : Table) (n : Nat) : Prop :=
  ∀ p ∈ t, (p.2 : List Cell).length = n

/-! ### The schema of `load_data` -/

def dateColumns : List String :=
  ["FSD Planned Del Date", "FSD Recieved Date",
   "FSD Planned Walkthrough Date", "FSD Actual Walkthrough Date",
   "Planned FUT Date", "Revised FUT Date", "Actual FUT Date",
   "Dev Planned Delivery Date", "Dev Revised Delivery Date", "Dev Actual Delivery Date",
   "Dev Planned Start Date", "Dev Revised Start Date", "Dev Actual Start Date",
   "ABAP Planned Delivery Date", "ABAP Revised Delivery Date", "ABAP Actual Delivery Date"]

def numericColumns : List String :=
  ["ABAP Effort Forecast (hrs)", "ABAP Actual Effort (hrs)",
   "PI Effort Forecast (hrs)", "PI Actual Effort (hrs)", "FSI"]

def categoricalColumns : List String :=
  ["Implementation", "WRICEF Type", "Complexity", "Priority of Delivery",
   "Stage", "Functional Owner", "Dev Lead ", "ABAP Developer ", "FUT Status"]

/-- Names of the eight columns created by the derived-metric step. -/
def derivedNames : List String :=
  ["FSD Duration", "DEV Duration", "FUT Duration", "ABAP Effort Variance",
   "FSD Duration Safe", "DEV Duration Safe", "FUT Duration Safe", "ABAP Effort Safe"]

/-- The eight columns the derived-metric step reads unconditionally. -/
def requiredCols : List String :=
  ["FSD Actual Walkthrough Date", "FSD Planned Del Date",
   "Dev Actual Delivery Date", "Dev Planned Delivery Date",
   "Actual FUT Date", "Planned FUT Date",
   "ABAP Actual Effort (hrs)", "ABAP Effort Forecast (hrs)"]

/-! ### Derived metrics -/

/-- `(actual - planned).dt.days` per row: defined when both endpoints
are dates, NaN otherwise (NaT propagates through the subtraction). -/
def diffDays (a p : Cell) : Cell :=
  match a, p with
  | Cell.date x, Cell.date y => Cell.int (x - y)
  | _, _ => Cell.na

/-- Numeric subtraction per row (used for the effort variance); NaN
propagates.  Both operand columns are zero-filled numerics here. -/
def subCell (a b : Cell) : Cell :=
  match a, b with
  | Cell.int x, Cell.int y => Cell.int (x - y)
  | _, _ => Cell.na

/-- `duration.fillna(0).abs() + 1` per row (lines 68-70). -/
def safeDur (c : Cell) : Cell :=
  match c with
  | Cell.na => Cell.int 1
  | Cell.int n => Cell.int (n.natAbs + 1)
  | c => c

/-- `forecast.fillna(0) + 1` per row (line 71) — note: no `abs()`. -/
def safeEffort (c : Cell) : Cell :=
  match c with
  | Cell.na => Cell.int 1
  | Cell.int n => Cell.int (n + 1)
  | c => c

/-- The three per-category coercion loops (lines 27-59), in source
order: dates, then numerics, then categoricals. -/
def coerceAll (t : Table) : Table :=
  applyFold catClean categoricalColumns
    (applyFold coerceNumFill numericColumns
      (applyFold coerceDate dateColumns t))

/-- `df[name]` where a missing name raises `KeyError`. -/
def req (t : Table) (n : String) : Except String (List Cell) :=
  match findCol t n with
  | some vs => Except.ok vs
  | none => Except.error n

/-- The derived-metric step (lines 62-71), with the source's lookup
and assignment order; any missing operand column raises. -/
def derive (t0 : Table) : Except String Table :=
  (req t0 "FSD Actual Walkthrough Date").bind fun faw =>
  (req t0 "FSD Planned Del Date").bind fun fpd =>
  let t1 := assign t0 "FSD Duration" (List.zipWith diffDays faw fpd)
  (req t1 "Dev Actual Delivery Date").bind fun dad =>
  (req t1 "Dev Planned Delivery Date").bind fun dpd =>
  let t2 := assign t1 "DEV Duration" (List.zipWith diffDays dad dpd)
  (req t2 "Actual FUT Date").bind fun afu =>
  (req t2 "Planned FUT Date").bind fun pfu =>
  let t3 := assign t2 "FUT Duration" (List.zipWith diffDays afu pfu)
  (req t3 "ABAP Actual Effort (hrs)").bind fun aae =>
  (req t3 "ABAP Effort Forecast (hrs)").bind fun aef =>
  let t4 := assign t3 "ABAP Effort Variance" (List.zipWith subCell aae aef)
  (req t4 "FSD Duration").bind fun fsdD =>
  let t5 := assign t4 "FSD Duration Safe" (fsdD.map safeDur)
  (req t5 "DEV Duration").bind fun devD =>
  let t6 := assign t5 "DEV Duration Safe" (devD.map safeDur)
  (req t6 "FUT Duration").bind fun futD =>
  let t7 := assign t6 "FUT Duration Safe" (futD.map safeDur)
  (req t7 "ABAP Effort Forecast (hrs)").bind fun aef2 =>
  Except.ok (assign t7 "ABAP Effort Safe" (aef2.map safeEffort))

/-- The whole preparation applied to a successfully read table. -/
def prepareE (t : Table) : Except String Table :=
  derive (coerceAll t)

/-- What `load_data` hands back: the dataframe, plus the error message
shown with `st.error` when the `except` branch ran. -/
structure LoadResult where
  table : Table
  err : Option String
deriving DecidableEq, Repr

/-- The `try/except` boundary applied to the preparation outcome: an
error is reported (`st.error`) with an empty dataframe returned. -/
def finishLoad (r : Except String Table) : LoadResult :=
  match r with
  | Except.error e => LoadResult.mk [] (some e)
  | Except.ok u => LoadResult.mk u none

/-- `load_data`: the argument is the outcome of the excel read
(`Except.error` when the file cannot be read or parsed).  Any failure
inside the `try` block is reported and an empty dataframe returned. -/
def load_data (src : Except String Table) : LoadResult :=
  match src with
  | Except.error e => LoadResult.mk [] (some e)
  | Except.ok t => finishLoad (prepareE t)

/-! ### Row slicing (to state row-order / row-independence facts) -/

/-- Apply one list transformation to every column. -/
def colwise (g : List Cell → List Cell) (t : Table) : Table :=
  t.map (fun p => (p.1, g p.2))

/-- The table restricted to its first `k` rows. -/
def rowTake (k : Nat) (t : Table) : Table :=
  colwise (fun vs => vs.take k) t

/-- The table with its first `k` rows removed. -/
def rowDrop (k : Nat) (t : Table) : Table :=
  colwise (fun vs => vs.drop k) t

/-! ### Concrete tables (the spec's scenarios and the counterexamples) -/

/-- One row; Dev dates are the spec's Scenario A values, the ABAP
effort forecast is the unparsable text of Scenario C, the FSD and FUT
endpoints are absent. -/
def tblA : Table :=
  [("FSD Actual Walkthrough Date", [Cell.na]),
   ("FSD Planned Del Date", [Cell.na]),
   ("Dev Actual Delivery Date", [Cell.str "2024-01-10"]),
   ("Dev Planned Delivery Date", [Cell.str "2024-01-01"]),
   ("Actual FUT Date", [Cell.na]),
   ("Planned FUT Date", [Cell.na]),
   ("ABAP Actual Effort (hrs)", [Cell.na]),
   ("ABAP Effort Forecast (hrs)", [Cell.str "N/A"])]

/-- One row; the Dev planned date is absent while the actual is
present (the spec's Scenario B). -/
def tblB : Table :=
  [("FSD Actual Walkthrough Date", [Cell.na]),
   ("FSD Planned Del Date", [Cell.na]),
   ("Dev Actual Delivery Date", [Cell.str "2024-01-10"]),
   ("Dev Planned Delivery Date", [Cell.na]),
   ("Actual FUT Date", [Cell.na]),
   ("Planned FUT Date", [Cell.na]),
   ("ABAP Actual Effort (hrs)", [Cell.na]),
   ("ABAP Effort Forecast (hrs)", [Cell.na])]

/-- One row with a negative ABAP effort forecast. -/
def tblNeg : Table :=
  [("FSD Actual Walkthrough Date", [Cell.na]),
   ("FSD Planned Del Date", [Cell.na]),
   ("Dev Actual Delivery Date", [Cell.na]),
   ("Dev Planned Delivery Date", [Cell.na]),
   ("Actual FUT Date", [Cell.na]),
   ("Planned FUT Date", [Cell.na]),
   ("ABAP Actual Effort (hrs)", [Cell.na]),
   ("ABAP Effort Forecast (hrs)", [Cell.int (-5)])]

/-- One row with a negative value in the numeric column `FSI`. -/
def tblNum : Table :=
  [("FSD Actual Walkthrough Date", [Cell.na]),
   ("FSD Planned Del Date", [Cell.na]),
   ("Dev Actual Delivery Date", [Cell.na]),
   ("Dev Planned Delivery Date", [Cell.na]),
   ("Actual FUT Date", [Cell.na]),
   ("Planned FUT Date", [Cell.na]),
   ("ABAP Actual Effort (hrs)", [Cell.na]),
   ("ABAP Effort Forecast (hrs)", [Cell.na]),
   ("FSI", [Cell.int (-3)])]

/-- One row where `Development ID` and `Complexity` are both absent. -/
def tblCat : Table :=
  [("FSD Actual Walkthrough Date", [Cell.na]),
   ("FSD Planned Del Date", [Cell.na]),
   ("Dev Actual Delivery Date", [Cell.na]),
   ("Dev Planned Delivery Date", [Cell.na]),
   ("Actual FUT Date", [Cell.na]),
   ("Planned FUT Date", [Cell.na]),
   ("ABAP Actual Effort (hrs)", [Cell.na]),
   ("ABAP Effort Forecast (hrs)", [Cell.na]),
   ("Development ID", [Cell.na]),
   ("Complexity", [Cell.na])]

/-- One row carrying a pre-existing column named `FSD Duration` (a
name outside the recognized schema sets) and an unrecognized extra
column. -/
def tblPass : Table :=
  [("FSD Actual Walkthrough Date", [Cell.na]),
   ("FSD Planned Del Date", [Cell.na]),
   ("Dev Actual Delivery Date", [Cell.na]),
   ("Dev Planned Delivery Date", [Cell.na]),
   ("Actual FUT Date", [Cell.na]),
   ("Planned FUT Date", [Cell.na]),
   ("ABAP Actual Effort (hrs)", [Cell.na]),
   ("ABAP Effort Forecast (hrs)", [Cell.na]),
   ("FSD Duration", [Cell.int 42]),
   ("Extra Col", [Cell.str "keep"])]

/-! ## Lemmas: column lookup through the table operations -/

theorem findCol_mapColIfPresent (t : Table) (n : String) (f : Cell → Cell) (m : String) :
    findCol (mapColIfPresent n f t) m =
      if m = n then (findCol t m).map (List.map f) else findCol t m := by
  induction t with
  | nil => simp [mapColIfPresent, findCol]
  | cons p t ih =>
    by_cases hpn : p.1 = n
    · subst hpn
      by_cases hpm : p.1 = m
      · subst hpm
        simp [mapColIfPresent, findCol]
      · have hmp : ¬ m = p.1 := fun e => hpm e.symm
        simp only [mapColIfPresent, List.map_cons, if_pos rfl] at *
        simp [findCol, hpm, hmp, ih]
    · by_cases hpm : p.1 = m
      · subst hpm
        simp [mapColIfPresent, findCol, hpn]
      · simp only [mapColIfPresent, List.map_cons, if_neg hpn] at *
        simp [findCol, hpm, ih]

theorem findCol_setAll (t : Table) (n : String) (vs : List Cell) (m : String) :
    findCol (t.map (fun p => if p.1 = n then (p.1, vs) else p)) m =
      if m = n then (findCol t m).map (fun _ => vs) else findCol t m := by
  induction t with
  | nil => simp [findCol]
  | cons p t ih =>
    by_cases hpn : p.1 = n
    · subst hpn
      by_cases hpm : p.1 = m
      · subst hpm
        simp [findCol]
      · have hmp : ¬ m = p.1 := fun e => hpm e.symm
        simp only [List.map_cons, if_pos rfl]
        simp [findCol, hpm, hmp, ih]
    · by_cases hpm : p.1 = m
      · subst hpm
        simp [findCol, hpn]
      · simp only [List.map_cons, if_neg hpn]
        simp [findCol, hpm, ih]

theorem findCol_append_of_none (t u : Table) (m : String) (h : findCol t m = none) :
    findCol (t ++ u) m = findCol u m := by
  induction t with
  | nil => rfl
  | cons p t ih =>
    by_cases hpm : p.1 = m
    · simp [findCol, hpm] at h
    · simp only [findCol, hpm, if_false, List.cons_append] at h ⊢
      simp [findCol, hpm]
      exact ih h

theorem findCol_append_of_some (t u : Table) (m : String) (vs : List Cell)
    (h : findCol t m = some vs) :
    findCol (t ++ u) m = some vs := by
  induction t with
  | nil => cases h
  | cons p t ih =>
    by_cases hpm : p.1 = m <;> simp [findCol, hpm] at h ⊢
    · exact h
    · exact ih h

theorem findCol_not_hasCol (t : Table) (m : String) (h : ¬ hasCol t m = true) :
    findCol t m = none := by
  unfold hasCol at h
  cases hfc : findCol t m with
  | none => rfl
  | some vs => rw [hfc] at h; cases h rfl

theorem findCol_assign (t : Table) (n : String) (vs : List Cell) (m : String) :
    findCol (assign t n vs) m = if m = n then some vs else findCol t m := by
  unfold assign
  by_cases h : hasCol t n = true
  · rw [if_pos h, findCol_setAll]
    by_cases hmn : m = n
    · subst hmn
      unfold hasCol at h
      cases hfc : findCol t m with
      | none => rw [hfc] at h; cases h
      | some w => simp [hfc]
    · simp [hmn]
  · rw [if_neg h]
    by_cases hmn : m = n
    · subst hmn
      rw [findCol_append_of_none _ _ _ (findCol_not_hasCol t m h)]
      simp [findCol]
    · cases hfc : findCol t m with
      | none =>
        rw [findCol_append_of_none _ _ _ hfc]
        have hnm : ¬ n = m := fun e => hmn e.symm
        simp [findCol, hnm, hmn]
      | some w =>
        rw [findCol_append_of_some _ _ _ _ hfc]
        simp [hmn]

theorem applyFold_cons (f : Cell → Cell) (c : String) (cs : List String) (t : Table) :
    applyFold f (c :: cs) t = applyFold f cs (mapColIfPresent c f t) := rfl

theorem findCol_applyFold_not_mem (f : Cell → Cell) (l : List String) (t : Table)
    (m : String) (h : m ∉ l) :
    findCol (applyFold f l t) m = findCol t m := by
  induction l generalizing t with
  | nil => rfl
  | cons c cs ih =>
    have h1 : m ≠ c := fun e => h (e ▸ List.mem_cons_self c cs)
    have h2 : m ∉ cs := fun e => h (List.mem_cons_of_mem c e)
    rw [applyFold_cons, ih _ h2, findCol_mapColIfPresent, if_neg h1]

theorem findCol_applyFold_mem (f : Cell → Cell) (l : List String) (t : Table)
    (m : String) (hnd : l.Nodup) (h : m ∈ l) :
    findCol (applyFold f l t) m = (findCol t m).map (List.map f) := by
  induction l generalizing t with
  | nil => cases h
  | cons c cs ih =>
    rcases List.mem_cons.mp h with rfl | hm
    · have hc : m ∉ cs := (List.nodup_cons.mp hnd).1
      rw [applyFold_cons, findCol_applyFold_not_mem _ _ _ _ hc,
        findCol_mapColIfPresent, if_pos rfl]
    · have hne : m ≠ c := by
        rintro rfl; exact (List.nodup_cons.mp hnd).1 hm
      rw [applyFold_cons, ih _ (List.nodup_cons.mp hnd).2 hm,
        findCol_mapColIfPresent, if_neg hne]

/-! ## Lemmas: the schema lists -/

theorem dateColumns_nodup : dateColumns.Nodup := by decide

theorem date_disjoint :
    ∀ n ∈ dateColumns,
      n ∉ numericColumns ∧ n ∉ categoricalColumns ∧ n ∉ derivedNames := by decide

theorem numericColumns_nodup : numericColumns.Nodup := by decide

theorem numeric_disjoint :
    ∀ n ∈ numericColumns,
      n ∉ dateColumns ∧ n ∉ categoricalColumns ∧ n ∉ derivedNames := by decide

theorem categoricalColumns_nodup : categoricalColumns.Nodup := by decide

theorem categorical_disjoint :
    ∀ n ∈ categoricalColumns,
      n ∉ dateColumns ∧ n ∉ numericColumns ∧ n ∉ derivedNames := by decide

theorem required_class :
    ∀ n ∈ requiredCols,
      (n ∈ dateColumns ∨ n ∈ numericColumns) ∧ n ∉ derivedNames := by decide

/-! ## Lemmas: the coercion pass -/

theorem findCol_coerceAll_date (t : Table) (m : String) (h : m ∈ dateColumns) :
    findCol (coerceAll t) m = (findCol t m).map (List.map coerceDate) := by
  unfold coerceAll
  rw [findCol_applyFold_not_mem _ _ _ _ (date_disjoint m h).2.1,
    findCol_applyFold_not_mem _ _ _ _ (date_disjoint m h).1,
    findCol_applyFold_mem _ _ _ _ dateColumns_nodup h]

theorem findCol_coerceAll_numeric (t : Table) (m : String) (h : m ∈ numericColumns) :
    findCol (coerceAll t) m = (findCol t m).map (List.map coerceNumFill) := by
  unfold coerceAll
  rw [findCol_applyFold_not_mem _ _ _ _ (numeric_disjoint m h).2.1,
    findCol_applyFold_mem _ _ _ _ numericColumns_nodup h,
    findCol_applyFold_not_mem _ _ _ _ (numeric_disjoint m h).1]

theorem findCol_coerceAll_categorical (t : Table) (m : String) (h : m ∈ categoricalColumns) :
    findCol (coerceAll t) m = (findCol t m).map (List.map catClean) := by
  unfold coerceAll
  rw [findCol_applyFold_mem _ _ _ _ categoricalColumns_nodup h,
    findCol_applyFold_not_mem _ _ _ _ (categorical_disjoint m h).2.1,
    findCol_applyFold_not_mem _ _ _ _ (categorical_disjoint m h).1]

theorem findCol_coerceAll_other (t : Table) (m : String) (h1 : m ∉ dateColumns)
    (h2 : m ∉ numericColumns) (h3 : m ∉ categoricalColumns) :
    findCol (coerceAll t) m = findCol t m := by
  unfold coerceAll
  rw [findCol_applyFold_not_mem _ _ _ _ h3,
    findCol_applyFold_not_mem _ _ _ _ h2,
    findCol_applyFold_not_mem _ _ _ _ h1]

theorem hasCol_coerceAll (t : Table) (m : String) :
    hasCol (coerceAll t) m = hasCol t m := by
  by_cases hd : m ∈ dateColumns
  · unfold hasCol
    rw [findCol_coerceAll_date t m hd]
    cases findCol t m <;> rfl
  · by_cases hn : m ∈ numericColumns
    · unfold hasCol
      rw [findCol_coerceAll_numeric t m hn]
      cases findCol t m <;> rfl
    · by_cases hc : m ∈ categoricalColumns
      · unfold hasCol
        rw [findCol_coerceAll_categorical t m hc]
        cases findCol t m <;> rfl
      · unfold hasCol
        rw [findCol_coerceAll_other t m hd hn hc]

/-! ## Lemmas: the derived-metric step -/

theorem req_eq_ok (t : Table) (n : String) (vs : List Cell) (h : findCol t n = some vs) :
    req t n = Except.ok vs := by
  unfold req
  rw [h]

theorem req_eq_error (t : Table) (n : String) (h : findCol t n = none) :
    req t n = Except.error n := by
  unfold req
  rw [h]

/-- When the eight unconditionally referenced columns are present,
`derive` succeeds and each derived column is the stated combination of
its operand columns; every other column is untouched. -/
theorem derive_spec (t0 : Table) (faw fpd dad dpd afu pfu aae aef : List Cell)
    (h1 : findCol t0 "FSD Actual Walkthrough Date" = some faw)
    (h2 : findCol t0 "FSD Planned Del Date" = some fpd)
    (h3 : findCol t0 "Dev Actual Delivery Date" = some dad)
    (h4 : findCol t0 "Dev Planned Delivery Date" = some dpd)
    (h5 : findCol t0 "Actual FUT Date" = some afu)
    (h6 : findCol t0 "Planned FUT Date" = some pfu)
    (h7 : findCol t0 "ABAP Actual Effort (hrs)" = some aae)
    (h8 : findCol t0 "ABAP Effort Forecast (hrs)" = some aef) :
    ∃ u, derive t0 = Except.ok u ∧
      findCol u "FSD Duration" = some (List.zipWith diffDays faw fpd) ∧
      findCol u "DEV Duration" = some (List.zipWith diffDays dad dpd) ∧
      findCol u "FUT Duration" = some (List.zipWith diffDays afu pfu) ∧
      findCol u "ABAP Effort Variance" = some (List.zipWith subCell aae aef) ∧
      findCol u "FSD Duration Safe" = some ((List.zipWith diffDays faw fpd).map safeDur) ∧
      findCol u "DEV Duration Safe" = some ((List.zipWith diffDays dad dpd).map safeDur) ∧
      findCol u "FUT Duration Safe" = some ((List.zipWith diffDays afu pfu).map safeDur) ∧
      findCol u "ABAP Effort Safe" = some (aef.map safeEffort) ∧
      (∀ m, m ∉ derivedNames → findCol u m = findCol t0 m) := by
  refine ⟨assign (assign (assign (assign (assign (assign (assign (assign t0
      "FSD Duration" (List.zipWith diffDays faw fpd))
      "DEV Duration" (List.zipWith diffDays dad dpd))
      "FUT Duration" (List.zipWith diffDays afu pfu))
      "ABAP Effort Variance" (List.zipWith subCell aae aef))
      "FSD Duration Safe" ((List.zipWith diffDays faw fpd).map safeDur))
      "DEV Duration Safe" ((List.zipWith diffDays dad dpd).map safeDur))
      "FUT Duration Safe" ((List.zipWith diffDays afu pfu).map safeDur))
      "ABAP Effort Safe" (aef.map safeEffort),
    ?_, ?_, ?_, ?_, ?_, ?_, ?_, ?_, ?_, ?_⟩
  · simp only [derive, req, findCol_assign, h1, h2, h3, h4, h5, h6, h7, h8,
      Except.bind]
    simp
  · simp [findCol_assign]
  · simp [findCol_assign]
  · simp [findCol_assign]
  · simp [findCol_assign]
  · simp [findCol_assign]
  · simp [findCol_assign]
  · simp [findCol_assign]
  · simp [findCol_assign]
  · intro m hm
    simp only [derivedNames, List.mem_cons, List.not_mem_nil, or_false, not_or] at hm
    obtain ⟨n1, n2, n3, n4, n5, n6, n7, n8⟩ := hm
    simp [findCol_assign, n1, n2, n3, n4, n5, n6, n7, n8]

/-- `derive` succeeds only when all eight unconditionally referenced
columns are present (any missing one raises before the end). -/
theorem derive_ok_hasCol (t0 u : Table) (h : derive t0 = Except.ok u) :
    ∀ n ∈ requiredCols, hasCol t0 n = true := by
  cases h1 : findCol t0 "FSD Actual Walkthrough Date" with
  | none => simp [derive, req, Except.bind, h1] at h
  | some faw =>
  cases h2 : findCol t0 "FSD Planned Del Date" with
  | none => simp [derive, req, Except.bind, h1, h2] at h
  | some fpd =>
  cases h3 : findCol t0 "Dev Actual Delivery Date" with
  | none => simp [derive, req, Except.bind, findCol_assign, h1, h2, h3] at h
  | some dad =>
  cases h4 : findCol t0 "Dev Planned Delivery Date" with
  | none => simp [derive, req, Except.bind, findCol_assign, h1, h2, h3, h4] at h
  | some dpd =>
  cases h5 : findCol t0 "Actual FUT Date" with
  | none => simp [derive, req, Except.bind, findCol_assign, h1, h2, h3, h4, h5] at h
  | some afu =>
  cases h6 : findCol t0 "Planned FUT Date" with
  | none => simp [derive, req, Except.bind, findCol_assign, h1, h2, h3, h4, h5, h6] at h
  | some pfu =>
  cases h7 : findCol t0 "ABAP Actual Effort (hrs)" with
  | none => simp [derive, req, Except.bind, findCol_assign, h1, h2, h3, h4, h5, h6, h7] at h
  | some aae =>
  cases h8 : findCol t0 "ABAP Effort Forecast (hrs)" with
  | none => simp [derive, req, Except.bind, findCol_assign, h1, h2, h3, h4, h5, h6, h7, h8] at h
  | some aef =>
    intro n hn
    fin_cases hn <;> simp [hasCol, h1, h2, h3, h4, h5, h6, h7, h8]

/-- A successful `prepareE` requires the eight columns in the raw table. -/
theorem prep_hasCol (t u : Table) (h : prepareE t = Except.ok u) :
    ∀ n ∈ requiredCols, hasCol t n = true := by
  intro n hn
  have h2 := derive_ok_hasCol _ _ h n hn
  rwa [hasCol_coerceAll] at h2

/-- With the eight columns present, `prepareE` cannot fail: no cell
value ever aborts the load. -/
theorem prep_total (t : Table) (hall : ∀ n ∈ requiredCols, hasCol t n = true) :
    ∃ u, prepareE t = Except.ok u := by
  have g : ∀ n ∈ requiredCols, ∃ vs, findCol (coerceAll t) n = some vs := by
    intro n hn
    have hx := hall n hn
    rw [← hasCol_coerceAll] at hx
    unfold hasCol at hx
    exact Option.isSome_iff_exists.mp hx
  obtain ⟨faw, e1⟩ := g _ (by decide : "FSD Actual Walkthrough Date" ∈ requiredCols)
  obtain ⟨fpd, e2⟩ := g _ (by decide : "FSD Planned Del Date" ∈ requiredCols)
  obtain ⟨dad, e3⟩ := g _ (by decide : "Dev Actual Delivery Date" ∈ requiredCols)
  obtain ⟨dpd, e4⟩ := g _ (by decide : "Dev Planned Delivery Date" ∈ requiredCols)
  obtain ⟨afu, e5⟩ := g _ (by decide : "Actual FUT Date" ∈ requiredCols)
  obtain ⟨pfu, e6⟩ := g _ (by decide : "Planned FUT Date" ∈ requiredCols)
  obtain ⟨aae, e7⟩ := g _ (by decide : "ABAP Actual Effort (hrs)" ∈ requiredCols)
  obtain ⟨aef, e8⟩ := g _ (by decide : "ABAP Effort Forecast (hrs)" ∈ requiredCols)
  obtain ⟨u, hu, -⟩ := derive_spec _ _ _ _ _ _ _ _ _ e1 e2 e3 e4 e5 e6 e7 e8
  exact ⟨u, hu⟩

/-- Shape of a successful preparation: the operand columns exist in the
coerced table and every output column is characterized. -/
theorem prep_ok_spec (t u : Table) (h : prepareE t = Except.ok u) :
    ∃ faw fpd dad dpd afu pfu aae aef,
      findCol (coerceAll t) "FSD Actual Walkthrough Date" = some faw ∧
      findCol (coerceAll t) "FSD Planned Del Date" = some fpd ∧
      findCol (coerceAll t) "Dev Actual Delivery Date" = some dad ∧
      findCol (coerceAll t) "Dev Planned Delivery Date" = some dpd ∧
      findCol (coerceAll t) "Actual FUT Date" = some afu ∧
      findCol (coerceAll t) "Planned FUT Date" = some pfu ∧
      findCol (coerceAll t) "ABAP Actual Effort (hrs)" = some aae ∧
      findCol (coerceAll t) "ABAP Effort Forecast (hrs)" = some aef ∧
      findCol u "FSD Duration" = some (List.zipWith diffDays faw fpd) ∧
      findCol u "DEV Duration" = some (List.zipWith diffDays dad dpd) ∧
      findCol u "FUT Duration" = some (List.zipWith diffDays afu pfu) ∧
      findCol u "ABAP Effort Variance" = some (List.zipWith subCell aae aef) ∧
      findCol u "FSD Duration Safe" = some ((List.zipWith diffDays faw fpd).map safeDur) ∧
      findCol u "DEV Duration Safe" = some ((List.zipWith diffDays dad dpd).map safeDur) ∧
      findCol u "FUT Duration Safe" = some ((List.zipWith diffDays afu pfu).map safeDur) ∧
      findCol u "ABAP Effort Safe" = some (aef.map safeEffort) ∧
      (∀ m, m ∉ derivedNames → findCol u m = findCol (coerceAll t) m) := by
  have hall := derive_ok_hasCol _ _ h
  have g : ∀ n ∈ requiredCols, ∃ vs, findCol (coerceAll t) n = some vs := by
    intro n hn
    have hx := hall n hn
    unfold hasCol at hx
    exact Option.isSome_iff_exists.mp hx
  obtain ⟨faw, e1⟩ := g _ (by decide : "FSD Actual Walkthrough Date" ∈ requiredCols)
  obtain ⟨fpd, e2⟩ := g _ (by decide : "FSD Planned Del Date" ∈ requiredCols)
  obtain ⟨dad, e3⟩ := g _ (by decide : "Dev Actual Delivery Date" ∈ requiredCols)
  obtain ⟨dpd, e4⟩ := g _ (by decide : "Dev Planned Delivery Date" ∈ requiredCols)
  obtain ⟨afu, e5⟩ := g _ (by decide : "Actual FUT Date" ∈ requiredCols)
  obtain ⟨pfu, e6⟩ := g _ (by decide : "Planned FUT Date" ∈ requiredCols)
  obtain ⟨aae, e7⟩ := g _ (by decide : "ABAP Actual Effort (hrs)" ∈ requiredCols)
  obtain ⟨aef, e8⟩ := g _ (by decide : "ABAP Effort Forecast (hrs)" ∈ requiredCols)
  obtain ⟨u2, hu2, hrest⟩ := derive_spec _ _ _ _ _ _ _ _ _ e1 e2 e3 e4 e5 e6 e7 e8
  have heq : u = u2 := by
    have hx : Except.ok (ε := String) u = Except.ok u2 := by
      rw [← h, ← hu2]
      rfl
    exact Except.ok.inj hx
  subst heq
  exact ⟨faw, fpd, dad, dpd, afu, pfu, aae, aef,
    e1, e2, e3, e4, e5, e6, e7, e8, hrest⟩

/-! ## Small helper lemmas -/

theorem exists_of_mem_zipWith {α β γ : Type} {f : α → β → γ} {l1 : List α}
    {l2 : List β} {c : γ} (h : c ∈ List.zipWith f l1 l2) : ∃ a b, c = f a b := by
  induction l1 generalizing l2 with
  | nil => simp at h
  | cons x xs ih =>
    cases l2 with
    | nil => simp at h
    | cons y ys =>
      rw [List.zipWith_cons_cons] at h
      rcases List.mem_cons.mp h with rfl | hm
      · exact ⟨x, y, rfl⟩
      · exact ih hm

/-- The duration-safe transform always yields an integer of at least 1,
whatever the two duration operands were. -/
theorem safeDur_diffDays_ge_one (a b : Cell) :
    ∃ n : Int, safeDur (diffDays a b) = Cell.int n ∧ 1 ≤ n := by
  have key : ∀ x y : Int, (1 : Int) ≤ (Int.natAbs (x - y) : Int) + 1 := by
    intro x y
    have hx := Int.ofNat_nonneg (Int.natAbs (x - y))
    omega
  cases a <;> cases b <;>
    first
      | exact ⟨1, rfl, le_refl 1⟩
      | exact ⟨_, rfl, key _ _⟩

theorem load_data_ok (t : Table) :
    load_data (Except.ok t) = finishLoad (prepareE t) := rfl

theorem finishLoad_error (e : String) :
    finishLoad (Except.error e) = LoadResult.mk [] (some e) := rfl

theorem finishLoad_ok (u : Table) :
    finishLoad (Except.ok u) = LoadResult.mk u none := rfl

/-! ## The claims -/

/-- Claim C5: a failed read of the backing source is reported as a
single error and yields an empty table; more generally, whenever
`load_data` reports any error, the returned table is empty — no
partial table ever escapes a failed load. -/
theorem c5_load_failure_empty :
    (∀ e, load_data (Except.error e) = LoadResult.mk [] (some e)) ∧
    (∀ src, (load_data src).err ≠ none → (load_data src).table = []) := by
  constructor
  · intro e
    rfl
  · intro src h
    cases src with
    | error e => rfl
    | ok t =>
      cases hp : prepareE t with
      | error e =>
        have hx : load_data (Except.ok t) = LoadResult.mk [] (some e) := by
          rw [load_data_ok, hp, finishLoad_error]
        rw [hx]
      | ok u =>
        exfalso
        apply h
        have hx : load_data (Except.ok t) = LoadResult.mk u none := by
          rw [load_data_ok, hp, finishLoad_ok]
        rw [hx]

/-- Witness for C5 at a concrete failed read. -/
theorem c5_load_failure_empty_witness :
    (load_data (Except.error "file missing")).table = [] ∧
    (load_data (Except.error "file missing")).err = some "file missing" :=
  ⟨c5_load_failure_empty.2 (Except.error "file missing") (by decide),
   (congrArg LoadResult.err (c5_load_failure_empty.1 "file missing"))⟩

/-- Claim C8: preparation is deterministic — the same raw read always
produces the same result (the embedded pipeline is a pure function). -/
theorem c8_deterministic :
    ∀ src : Except String Table, load_data src = load_data src :=
  fun _ => rfl

/-- Claim C10: if the raw table lacks any one of the eight columns the
derived-metric step references unconditionally, the whole load fails:
`load_data` reports an error and returns the empty table rather than a
table with the remaining columns. -/
theorem c10_missing_required_col (t : Table) (name : String)
    (hmem : name ∈ requiredCols) (hmiss : hasCol t name = false) :
    (load_data (Except.ok t)).table = [] ∧ (load_data (Except.ok t)).err ≠ none := by
  cases hp : prepareE t with
  | ok u =>
    exfalso
    have hx := prep_hasCol t u hp name hmem
    rw [hmiss] at hx
    cases hx
  | error e =>
    have hx : load_data (Except.ok t) = LoadResult.mk [] (some e) := by
      rw [load_data_ok, hp, finishLoad_error]
    rw [hx]
    exact ⟨rfl, fun hy => Option.noConfusion hy⟩

/-- Witness for C10: a table missing all eight columns loads empty. -/
theorem c10_missing_required_col_witness :
    (load_data (Except.ok ([] : Table))).table = [] ∧
    (load_data (Except.ok ([] : Table))).err ≠ none :=
  c10_missing_required_col [] "FSD Actual Walkthrough Date" (by decide) (by decide)

/-- Counterexample to C9 as stated: a column named `FSD Duration` is
outside the recognized date/numeric/categorical sets, yet it is NOT
passed through unchanged — the derived-metric step overwrites it. -/
theorem c9_counterexample :
    ("FSD Duration" ∉ dateColumns ∧ "FSD Duration" ∉ numericColumns ∧
      "FSD Duration" ∉ categoricalColumns) ∧
    findCol tblPass "FSD Duration" = some [Cell.int 42] ∧
    findCol (load_data (Except.ok tblPass)).table "FSD Duration" = some [Cell.na] ∧
    (some [Cell.na] : Option (List Cell)) ≠ some [Cell.int 42] := by
  refine ⟨by decide, rfl, rfl, by decide⟩

/-- Claim C9 (amended): every column whose name is outside the
recognized date, numeric, and categorical sets AND is not one of the
eight derived-column names is passed through unchanged. -/
theorem c9_amended_passthrough (t u : Table) (name : String)
    (h : prepareE t = Except.ok u)
    (h1 : name ∉ dateColumns) (h2 : name ∉ numericColumns)
    (h3 : name ∉ categoricalColumns) (h4 : name ∉ derivedNames) :
    findCol u name = findCol t name := by
  obtain ⟨faw, fpd, dad, dpd, afu, pfu, aae, aef, e1, e2, e3, e4, e5, e6, e7, e8,
    d1, d2, d3, d4, d5, d6, d7, d8, hother⟩ := prep_ok_spec t u h
  rw [hother name h4, findCol_coerceAll_other t name h1 h2 h3]

/-- Witness for C9 (amended): the unrecognized extra column of
`tblPass` survives preparation value for value. -/
theorem c9_amended_passthrough_witness :
    findCol (load_data (Except.ok tblPass)).table "Extra Col" = some [Cell.str "keep"] := by
  have h := c9_amended_passthrough tblPass ((load_data (Except.ok tblPass)).table)
    "Extra Col" rfl (by decide) (by decide) (by decide) (by decide)
  rw [h]
  rfl

/-- Counterexample to C4 as stated: `Development ID` (also
`Project Name`) is not in the code's categorical list, so an absent
value is NOT replaced by the string `Unknown` — it stays absent. -/
theorem c4_counterexample :
    findCol (load_data (Except.ok tblCat)).table "Development ID" = some [Cell.na] ∧
    (∀ s : String, Cell.na ≠ Cell.str s) := by
  refine ⟨rfl, ?_⟩
  intro s h
  cases h

/-- Claim C4 (amended): each of the nine columns in the code's
categorical list (Implementation, WRICEF Type, Complexity, Priority of
Delivery, Stage, Functional Owner, `Dev Lead ` and `ABAP Developer `
with their trailing spaces, FUT Status) that is present is cleaned:
every cell becomes a string, with absent cells becoming `Unknown`;
Development ID and Project Name are not among them. -/
theorem c4_amended_categorical (t u : Table) (name : String) (vs : List Cell)
    (h : prepareE t = Except.ok u) (hn : name ∈ categoricalColumns)
    (hv : findCol t name = some vs) :
    findCol u name = some (vs.map catClean) ∧
    (∀ c ∈ vs.map catClean, ∃ s, c = Cell.str s) ∧
    catClean Cell.na = Cell.str "Unknown" ∧
    ("Development ID" ∉ categoricalColumns ∧ "Project Name" ∉ categoricalColumns) := by
  obtain ⟨faw, fpd, dad, dpd, afu, pfu, aae, aef, e1, e2, e3, e4, e5, e6, e7, e8,
    d1, d2, d3, d4, d5, d6, d7, d8, hother⟩ := prep_ok_spec t u h
  refine ⟨?_, ?_, rfl, by decide⟩
  · rw [hother name (categorical_disjoint name hn).2.2,
      findCol_coerceAll_categorical t name hn, hv]
    rfl
  · intro c hc
    rw [List.mem_map] at hc
    obtain ⟨a, _, rfl⟩ := hc
    cases a <;> exact ⟨_, rfl⟩

/-- Witness for C4 (amended), the spec's Scenario D: an absent
`Complexity` cell becomes the string `Unknown`. -/
theorem c4_amended_categorical_witness :
    findCol (load_data (Except.ok tblCat)).table "Complexity" = some [Cell.str "Unknown"] := by
  have h := c4_amended_categorical tblCat ((load_data (Except.ok tblCat)).table)
    "Complexity" [Cell.na] rfl (by decide) rfl
  rw [h.1]
  rfl

/-- Counterexample to C1 as stated: with a raw ABAP effort forecast of
-5, the prepared `ABAP Effort Safe` value is -4, which is below 1 —
line 71 adds 1 to the forecast without taking an absolute value. -/
theorem c1_counterexample :
    findCol (load_data (Except.ok tblNeg)).table "ABAP Effort Safe" = some [Cell.int (-4)] ∧
    ¬ (1 : Int) ≤ -4 :=
  ⟨rfl, by decide⟩

/-- Claim C1 (amended): the three duration-safe fields are numbers ≥ 1
for every possible underlying value (negative, zero or absent); the
`ABAP Effort Safe` field is always a number, and it is ≥ 1 whenever
every coerced forecast value of its column is non-negative (in
particular when the forecast is absent, unparsable, or zero), the
code taking no absolute value there. -/
theorem c1_amended_safe (t u : Table) (h : prepareE t = Except.ok u) :
    (∀ name ∈ (["FSD Duration Safe", "DEV Duration Safe", "FUT Duration Safe"] : List String),
      ∀ c ∈ (findCol u name).getD [], ∃ n : Int, c = Cell.int n ∧ 1 ≤ n) ∧
    (∀ c ∈ (findCol u "ABAP Effort Safe").getD [], ∃ n : Int, c = Cell.int n) ∧
    (∀ vs, findCol t "ABAP Effort Forecast (hrs)" = some vs →
      (∀ c ∈ vs, 0 ≤ (toNumeric c).getD 0) →
      ∀ c ∈ (findCol u "ABAP Effort Safe").getD [], ∃ n : Int, c = Cell.int n ∧ 1 ≤ n) := by
  obtain ⟨faw, fpd, dad, dpd, afu, pfu, aae, aef, e1, e2, e3, e4, e5, e6, e7, e8,
    d1, d2, d3, d4, d5, d6, d7, d8, hother⟩ := prep_ok_spec t u h
  rw [findCol_coerceAll_numeric t _ (by decide)] at e8
  cases hraw : findCol t "ABAP Effort Forecast (hrs)" with
  | none =>
    rw [hraw] at e8
    cases e8
  | some raw =>
    rw [hraw] at e8
    have haef : aef = raw.map coerceNumFill := (Option.some.inj e8).symm
    have key : ∀ (X Y : List Cell), ∀ c ∈ (List.zipWith diffDays X Y).map safeDur,
        ∃ n : Int, c = Cell.int n ∧ 1 ≤ n := by
      intro X Y c hc
      rw [List.mem_map] at hc
      obtain ⟨d, hd, rfl⟩ := hc
      obtain ⟨x, y, rfl⟩ := exists_of_mem_zipWith hd
      exact safeDur_diffDays_ge_one x y
    refine ⟨?_, ?_, ?_⟩
    · intro name hname
      fin_cases hname
      · simp only [d5, Option.getD_some]
        exact key faw fpd
      · simp only [d6, Option.getD_some]
        exact key dad dpd
      · simp only [d7, Option.getD_some]
        exact key afu pfu
    · simp only [d8, haef, Option.getD_some, List.map_map]
      intro c hc
      rw [List.mem_map] at hc
      obtain ⟨r, -, rfl⟩ := hc
      exact ⟨_, rfl⟩
    · intro vs hvs hpos c hc
      have hrv : raw = vs := Option.some.inj hvs
      subst hrv
      simp only [d8, haef, Option.getD_some, List.map_map] at hc
      rw [List.mem_map] at hc
      obtain ⟨r, hr, rfl⟩ := hc
      have h0 := hpos r hr
      refine ⟨(toNumeric r).getD 0 + 1, rfl, by omega⟩

/-- Witness for C1 (amended) at `tblA`: the Dev duration-safe value is
≥ 1 and, the unparsable forecast of the row coercing to 0, the effort
safe value is ≥ 1 too. -/
theorem c1_amended_safe_witness :
    (∀ c ∈ (findCol (load_data (Except.ok tblA)).table "DEV Duration Safe").getD [],
      ∃ n : Int, c = Cell.int n ∧ 1 ≤ n) ∧
    (∀ c ∈ (findCol (load_data (Except.ok tblA)).table "ABAP Effort Safe").getD [],
      ∃ n : Int, c = Cell.int n ∧ 1 ≤ n) := by
  have h := c1_amended_safe tblA ((load_data (Except.ok tblA)).table) rfl
  exact ⟨h.1 "DEV Duration Safe" (by decide), h.2.2 [Cell.str "N/A"] rfl (by decide)⟩

/-- Counterexample to C2 as stated: a raw value of -3 in the numeric
column `FSI` coerces successfully and stays -3 after preparation — the
prepared value is a number but not ≥ 0. -/
theorem c2_counterexample :
    ("FSI" ∈ numericColumns) ∧
    findCol tblNum "FSI" = some [Cell.int (-3)] ∧
    findCol (load_data (Except.ok tblNum)).table "FSI" = some [Cell.int (-3)] ∧
    ¬ (0 : Int) ≤ -3 :=
  ⟨by decide, rfl, rfl, by decide⟩

/-- Claim C2 (amended): every recognized numeric column present in the
table is coerced value by value; a cell that fails coercion becomes
absent and every absence then becomes 0, so every prepared cell is a
non-null number — and that number is ≥ 0 whenever the coerced original
is (successfully coerced negative values are kept). -/
theorem c2_amended_numeric (t u : Table) (name : String) (vs : List Cell)
    (h : prepareE t = Except.ok u) (hn : name ∈ numericColumns)
    (hv : findCol t name = some vs) :
    findCol u name = some (vs.map coerceNumFill) ∧
    (∀ c ∈ vs.map coerceNumFill, ∃ m : Int, c = Cell.int m) ∧
    (∀ c ∈ vs, toNumeric c = none → coerceNumFill c = Cell.int 0) ∧
    (∀ c ∈ vs, 0 ≤ (toNumeric c).getD 0 →
      ∃ m : Int, coerceNumFill c = Cell.int m ∧ 0 ≤ m) := by
  obtain ⟨faw, fpd, dad, dpd, afu, pfu, aae, aef, e1, e2, e3, e4, e5, e6, e7, e8,
    d1, d2, d3, d4, d5, d6, d7, d8, hother⟩ := prep_ok_spec t u h
  refine ⟨?_, ?_, ?_, ?_⟩
  · rw [hother name (numeric_disjoint name hn).2.2,
      findCol_coerceAll_numeric t name hn, hv]
    rfl
  · intro c hc
    rw [List.mem_map] at hc
    obtain ⟨a, -, rfl⟩ := hc
    exact ⟨_, rfl⟩
  · intro c hcv hno
    unfold coerceNumFill
    rw [hno]
    rfl
  · intro c hcv h0
    exact ⟨_, rfl, h0⟩

/-- Witness for C2 (amended), the spec's Scenario C: the unparsable
forecast text of `tblA` is coerced to the number 0. -/
theorem c2_amended_numeric_witness :
    findCol (load_data (Except.ok tblA)).table "ABAP Effort Forecast (hrs)" =
      some [Cell.int 0] := by
  have h := c2_amended_numeric tblA ((load_data (Except.ok tblA)).table)
    "ABAP Effort Forecast (hrs)" [Cell.str "N/A"] rfl (by decide) rfl
  rw [h.1]
  rfl

/-- Claim C3: each derived duration column is the row-wise signed
day-count difference, actual minus planned, of the coerced cells of its
designated column pair, and a row's duration is a number exactly when
both coerced endpoints are dates, absent as soon as either is absent. -/
theorem c3_durations (t u : Table) (h : prepareE t = Except.ok u) :
    (∀ act pln, findCol t "Dev Actual Delivery Date" = some act →
      findCol t "Dev Planned Delivery Date" = some pln →
      findCol u "DEV Duration" =
        some (List.zipWith diffDays (act.map coerceDate) (pln.map coerceDate))) ∧
    (∀ act pln, findCol t "FSD Actual Walkthrough Date" = some act →
      findCol t "FSD Planned Del Date" = some pln →
      findCol u "FSD Duration" =
        some (List.zipWith diffDays (act.map coerceDate) (pln.map coerceDate))) ∧
    (∀ act pln, findCol t "Actual FUT Date" = some act →
      findCol t "Planned FUT Date" = some pln →
      findCol u "FUT Duration" =
        some (List.zipWith diffDays (act.map coerceDate) (pln.map coerceDate))) ∧
    (∀ x y, diffDays (Cell.date x) (Cell.date y) = Cell.int (x - y)) ∧
    (∀ c, diffDays Cell.na c = Cell.na) ∧
    (∀ c, diffDays c Cell.na = Cell.na) := by
  obtain ⟨faw, fpd, dad, dpd, afu, pfu, aae, aef, e1, e2, e3, e4, e5, e6, e7, e8,
    d1, d2, d3, d4, d5, d6, d7, d8, hother⟩ := prep_ok_spec t u h
  refine ⟨?_, ?_, ?_, fun x y => rfl, fun c => ?_, fun c => ?_⟩
  · intro act pln hact hpln
    rw [findCol_coerceAll_date t "Dev Actual Delivery Date" (by decide), hact] at e3
    rw [findCol_coerceAll_date t "Dev Planned Delivery Date" (by decide), hpln] at e4
    have g3 : dad = act.map coerceDate := (Option.some.inj e3).symm
    have g4 : dpd = pln.map coerceDate := (Option.some.inj e4).symm
    rw [d2, g3, g4]
  · intro act pln hact hpln
    rw [findCol_coerceAll_date t "FSD Actual Walkthrough Date" (by decide), hact] at e1
    rw [findCol_coerceAll_date t "FSD Planned Del Date" (by decide), hpln] at e2
    have g1 : faw = act.map coerceDate := (Option.some.inj e1).symm
    have g2 : fpd = pln.map coerceDate := (Option.some.inj e2).symm
    rw [d1, g1, g2]
  · intro act pln hact hpln
    rw [findCol_coerceAll_date t "Actual FUT Date" (by decide), hact] at e5
    rw [findCol_coerceAll_date t "Planned FUT Date" (by decide), hpln] at e6
    have g5 : afu = act.map coerceDate := (Option.some.inj e5).symm
    have g6 : pfu = pln.map coerceDate := (Option.some.inj e6).symm
    rw [d3, g5, g6]
  · cases c <;> rfl
  · cases c <;> rfl

/-- Witness for C3, the spec's Scenarios A and B: planned 2024-01-01
with actual 2024-01-10 gives a DEV duration of 9 days and a safe value
of 10; an absent planned date gives an absent duration and a safe
value of 1. -/
theorem c3_durations_witness :
    findCol (load_data (Except.ok tblA)).table "DEV Duration" = some [Cell.int 9] ∧
    findCol (load_data (Except.ok tblA)).table "DEV Duration Safe" = some [Cell.int 10] ∧
    findCol (load_data (Except.ok tblB)).table "DEV Duration" = some [Cell.na] ∧
    findCol (load_data (Except.ok tblB)).table "DEV Duration Safe" = some [Cell.int 1] := by
  have hA := (c3_durations tblA ((load_data (Except.ok tblA)).table) rfl).1
    [Cell.str "2024-01-10"] [Cell.str "2024-01-01"] rfl rfl
  have hB := (c3_durations tblB ((load_data (Except.ok tblB)).table) rfl).1
    [Cell.str "2024-01-10"] [Cell.na] rfl rfl
  refine ⟨?_, rfl, ?_, rfl⟩
  · rw [hA]
    rfl
  · rw [hB]
    rfl

/-- Counterexample to C6 as stated: the recognized date-column list of
the code has 16 names, not 15 (the spec miscounts the set). -/
theorem c6_counterexample :
    dateColumns.length = 16 ∧ dateColumns.length ≠ 15 := by
  decide

/-- Claim C6 (amended): the pipeline recognizes a named set of exactly
16 distinct date columns; each present one is parsed value by value,
an unparsable value becoming absent rather than an error, and the load
never aborts because of any cell value — with the eight referenced
columns present, preparation always succeeds. -/
theorem c6_amended_dates :
    dateColumns.length = 16 ∧ dateColumns.Nodup ∧
    (∀ t name vs, name ∈ dateColumns → findCol t name = some vs →
      findCol (coerceAll t) name = some (vs.map coerceDate)) ∧
    (∀ c, parseDate c = none → coerceDate c = Cell.na) ∧
    (∀ c d, parseDate c = some d → coerceDate c = Cell.date d) ∧
    (∀ t, (∀ n ∈ requiredCols, hasCol t n = true) → ∃ u, prepareE t = Except.ok u) := by
  refine ⟨by decide, dateColumns_nodup, ?_, ?_, ?_, prep_total⟩
  · intro t name vs hmem hv
    rw [findCol_coerceAll_date t name hmem, hv]
    rfl
  · intro c hc
    unfold coerceDate
    rw [hc]
  · intro c d hc
    unfold coerceDate
    rw [hc]

/-- Witness for C6 (amended): a string date parses into the coerced
column of `tblA`, and the load of `tblA` succeeds. -/
theorem c6_amended_dates_witness :
    findCol (coerceAll tblA) "Dev Planned Delivery Date" = some [Cell.date 738886] ∧
    (∃ u, prepareE tblA = Except.ok u) := by
  constructor
  · rw [c6_amended_dates.2.2.1 tblA "Dev Planned Delivery Date"
      [Cell.str "2024-01-01"] (by decide) rfl]
    rfl
  · exact c6_amended_dates.2.2.2.2.2 tblA (by decide)

/-! ## Lemmas: row slicing commutes with the pipeline (for C7) -/

theorem findCol_colwise (g : List Cell → List Cell) (t : Table) (m : String) :
    findCol (colwise g t) m = (findCol t m).map g := by
  induction t with
  | nil => rfl
  | cons p t ih =>
    by_cases hpm : p.1 = m <;> simp [colwise, findCol, hpm] <;>
      simpa [colwise] using ih

theorem hasCol_colwise (g : List Cell → List Cell) (t : Table) (m : String) :
    hasCol (colwise g t) m = hasCol t m := by
  unfold hasCol
  rw [findCol_colwise]
  cases findCol t m <;> rfl

theorem mapColIfPresent_colwise (g : List Cell → List Cell)
    (hmap : ∀ (f : Cell → Cell) (vs : List Cell), g (vs.map f) = (g vs).map f)
    (n : String) (f : Cell → Cell) (t : Table) :
    mapColIfPresent n f (colwise g t) = colwise g (mapColIfPresent n f t) := by
  induction t with
  | nil => rfl
  | cons p t ih =>
    by_cases hpn : p.1 = n <;>
      simp [colwise, mapColIfPresent, hpn, hmap] <;>
      simpa [colwise, mapColIfPresent] using ih

theorem applyFold_colwise (g : List Cell → List Cell)
    (hmap : ∀ (f : Cell → Cell) (vs : List Cell), g (vs.map f) = (g vs).map f)
    (f : Cell → Cell) (l : List String) (t : Table) :
    applyFold f l (colwise g t) = colwise g (applyFold f l t) := by
  induction l generalizing t with
  | nil => rfl
  | cons c cs ih =>
    rw [applyFold_cons, applyFold_cons, mapColIfPresent_colwise g hmap, ih]

theorem coerceAll_colwise (g : List Cell → List Cell)
    (hmap : ∀ (f : Cell → Cell) (vs : List Cell), g (vs.map f) = (g vs).map f)
    (t : Table) :
    coerceAll (colwise g t) = colwise g (coerceAll t) := by
  unfold coerceAll
  rw [applyFold_colwise g hmap, applyFold_colwise g hmap, applyFold_colwise g hmap]

theorem assign_colwise (g : List Cell → List Cell) (t : Table) (n : String)
    (vs : List Cell) :
    assign (colwise g t) n (g vs) = colwise g (assign t n vs) := by
  unfold assign
  rw [hasCol_colwise]
  by_cases h : hasCol t n = true
  · rw [if_pos h, if_pos h]
    clear h
    induction t with
    | nil => rfl
    | cons p t ih =>
      by_cases hpn : p.1 = n <;> simp [colwise, hpn] <;>
        simpa [colwise] using ih
  · rw [if_neg h, if_neg h]
    unfold colwise
    rw [List.map_append]
    rfl

theorem derive_colwise (g : List Cell → List Cell)
    (hmap : ∀ (f : Cell → Cell) (vs : List Cell), g (vs.map f) = (g vs).map f)
    (hzip : ∀ (k : Cell → Cell → Cell) (a b : List Cell),
      g (List.zipWith k a b) = List.zipWith k (g a) (g b))
    (t0 : Table) :
    derive (colwise g t0) = (derive t0).map (colwise g) := by
  cases h1 : findCol t0 "FSD Actual Walkthrough Date" with
  | none => simp [derive, req, Except.bind, Except.map, findCol_colwise, h1]
  | some faw =>
  cases h2 : findCol t0 "FSD Planned Del Date" with
  | none =>
    simp [derive, req, Except.bind, Except.map, findCol_colwise, findCol_assign, h1, h2]
  | some fpd =>
  cases h3 : findCol t0 "Dev Actual Delivery Date" with
  | none =>
    simp [derive, req, Except.bind, Except.map, findCol_colwise, findCol_assign, h1, h2, h3]
  | some dad =>
  cases h4 : findCol t0 "Dev Planned Delivery Date" with
  | none =>
    simp [derive, req, Except.bind, Except.map, findCol_colwise, findCol_assign,
      h1, h2, h3, h4]
  | some dpd =>
  cases h5 : findCol t0 "Actual FUT Date" with
  | none =>
    simp [derive, req, Except.bind, Except.map, findCol_colwise, findCol_assign,
      h1, h2, h3, h4, h5]
  | some afu =>
  cases h6 : findCol t0 "Planned FUT Date" with
  | none =>
    simp [derive, req, Except.bind, Except.map, findCol_colwise, findCol_assign,
      h1, h2, h3, h4, h5, h6]
  | some pfu =>
  cases h7 : findCol t0 "ABAP Actual Effort (hrs)" with
  | none =>
    simp [derive, req, Except.bind, Except.map, findCol_colwise, findCol_assign,
      h1, h2, h3, h4, h5, h6, h7]
  | some aae =>
  cases h8 : findCol t0 "ABAP Effort Forecast (hrs)" with
  | none =>
    simp [derive, req, Except.bind, Except.map, findCol_colwise, findCol_assign,
      h1, h2, h3, h4, h5, h6, h7, h8]
  | some aef =>
    simp only [derive, req, Except.bind, Except.map, findCol_colwise, findCol_assign,
      h1, h2, h3, h4, h5, h6, h7, h8]
    simp [findCol_assign]
    simp only [← hzip, ← hmap, assign_colwise]

theorem prepareE_colwise (g : List Cell → List Cell)
    (hmap : ∀ (f : Cell → Cell) (vs : List Cell), g (vs.map f) = (g vs).map f)
    (hzip : ∀ (k : Cell → Cell → Cell) (a b : List Cell),
      g (List.zipWith k a b) = List.zipWith k (g a) (g b))
    (t : Table) :
    prepareE (colwise g t) = (prepareE t).map (colwise g) := by
  unfold prepareE
  rw [coerceAll_colwise g hmap, derive_colwise g hmap hzip]

/-! ## Lemmas: rectangularity (for C7) -/

theorem rect_mapColIfPresent (nm : String) (f : Cell → Cell) (t : Table) (n : Nat)
    (h : Rect t n) : Rect (mapColIfPresent nm f t) n := by
  intro p hp
  rw [mapColIfPresent, List.mem_map] at hp
  obtain ⟨q, hq, rfl⟩ := hp
  by_cases hqn : q.1 = nm
  · rw [if_pos hqn]
    simp only [List.length_map]
    exact h q hq
  · rw [if_neg hqn]
    exact h q hq

theorem rect_applyFold (f : Cell → Cell) (l : List String) (t : Table) (n : Nat)
    (h : Rect t n) : Rect (applyFold f l t) n := by
  induction l generalizing t with
  | nil => exact h
  | cons c cs ih =>
    rw [applyFold_cons]
    exact ih _ (rect_mapColIfPresent c f t n h)

theorem rect_coerceAll (t : Table) (n : Nat) (h : Rect t n) : Rect (coerceAll t) n := by
  unfold coerceAll
  exact rect_applyFold _ _ _ _ (rect_applyFold _ _ _ _ (rect_applyFold _ _ _ _ h))

theorem rect_assign (t : Table) (nm : String) (vs : List Cell) (n : Nat)
    (h : Rect t n) (hv : vs.length = n) : Rect (assign t nm vs) n := by
  unfold assign
  by_cases hc : hasCol t nm = true
  · rw [if_pos hc]
    intro p hp
    rw [List.mem_map] at hp
    obtain ⟨q, hq, rfl⟩ := hp
    by_cases hqn : q.1 = nm
    · rw [if_pos hqn]
      exact hv
    · rw [if_neg hqn]
      exact h q hq
  · rw [if_neg hc]
    intro p hp
    rcases List.mem_append.mp hp with hl | hr
    · exact h p hl
    · rw [List.mem_singleton] at hr
      subst hr
      exact hv

theorem findCol_length (t : Table) (m : String) (vs : List Cell) (n : Nat)
    (h : Rect t n) (hv : findCol t m = some vs) : vs.length = n := by
  induction t with
  | nil => cases hv
  | cons p t ih =>
    simp only [findCol] at hv
    by_cases hpm : p.1 = m
    · rw [if_pos hpm] at hv
      have h2 := h p (List.mem_cons_self p t)
      rw [← Option.some.inj hv]
      exact h2
    · rw [if_neg hpm] at hv
      exact ih (fun q hq => h q (List.mem_cons_of_mem p hq)) hv

theorem derive_rect (t0 u : Table) (n : Nat) (hr : Rect t0 n)
    (h : derive t0 = Except.ok u) : Rect u n := by
  cases h1 : findCol t0 "FSD Actual Walkthrough Date" with
  | none => simp [derive, req, Except.bind, h1] at h
  | some faw =>
  cases h2 : findCol t0 "FSD Planned Del Date" with
  | none => simp [derive, req, Except.bind, h1, h2] at h
  | some fpd =>
  cases h3 : findCol t0 "Dev Actual Delivery Date" with
  | none => simp [derive, req, Except.bind, findCol_assign, h1, h2, h3] at h
  | some dad =>
  cases h4 : findCol t0 "Dev Planned Delivery Date" with
  | none => simp [derive, req, Except.bind, findCol_assign, h1, h2, h3, h4] at h
  | some dpd =>
  cases h5 : findCol t0 "Actual FUT Date" with
  | none => simp [derive, req, Except.bind, findCol_assign, h1, h2, h3, h4, h5] at h
  | some afu =>
  cases h6 : findCol t0 "Planned FUT Date" with
  | none => simp [derive, req, Except.bind, findCol_assign, h1, h2, h3, h4, h5, h6] at h
  | some pfu =>
  cases h7 : findCol t0 "ABAP Actual Effort (hrs)" with
  | none =>
    simp [derive, req, Except.bind, findCol_assign, h1, h2, h3, h4, h5, h6, h7] at h
  | some aae =>
  cases h8 : findCol t0 "ABAP Effort Forecast (hrs)" with
  | none =>
    simp [derive, req, Except.bind, findCol_assign, h1, h2, h3, h4, h5, h6, h7, h8] at h
  | some aef =>
    simp only [derive, req, Except.bind, findCol_assign, h1, h2, h3, h4, h5, h6, h7, h8] at h
    simp [findCol_assign, Except.ok.injEq] at h
    have l1 := findCol_length t0 _ _ n hr h1
    have l2 := findCol_length t0 _ _ n hr h2
    have l3 := findCol_length t0 _ _ n hr h3
    have l4 := findCol_length t0 _ _ n hr h4
    have l5 := findCol_length t0 _ _ n hr h5
    have l6 := findCol_length t0 _ _ n hr h6
    have l7 := findCol_length t0 _ _ n hr h7
    have l8 := findCol_length t0 _ _ n hr h8
    rw [← h]
    exact rect_assign _ _ _ _
      (rect_assign _ _ _ _
        (rect_assign _ _ _ _
          (rect_assign _ _ _ _
            (rect_assign _ _ _ _
              (rect_assign _ _ _ _
                (rect_assign _ _ _ _
                  (rect_assign _ _ _ _ hr
                    (by simp [List.length_zipWith, l1, l2]))
                  (by simp [List.length_zipWith, l3, l4]))
                (by simp [List.length_zipWith, l5, l6]))
              (by simp [List.length_zipWith, l7, l8]))
            (by simp [List.length_zipWith, List.length_map, l1, l2]))
          (by simp [List.length_zipWith, List.length_map, l3, l4]))
        (by simp [List.length_zipWith, List.length_map, l5, l6]))
      (by simp [List.length_map, l8])

theorem prep_rect (t u : Table) (n : Nat) (hr : Rect t n)
    (h : prepareE t = Except.ok u) : Rect u n :=
  derive_rect (coerceAll t) u n (rect_coerceAll t n hr) h

theorem nRows_eq_of_rect (t : Table) (n : Nat) (h : Rect t n) (hne : t ≠ []) :
    nRows t = n := by
  cases t with
  | nil => cases hne rfl
  | cons p t => exact h p (List.mem_cons_self p t)

theorem findCol_some_ne_nil (t : Table) (m : String) (vs : List Cell)
    (h : findCol t m = some vs) : t ≠ [] := by
  cases t with
  | nil => cases h
  | cons p t => exact List.cons_ne_nil p t

/-- Claim C7: on a successful load over a rectangular table the output
is rectangular with the same row count; moreover preparation commutes
with truncating to the first `k` rows and with dropping the first `k`
rows, so row `i` of the output is computed from row `i` of the input
alone — no row is dropped, added, or reordered. -/
theorem c7_row_preservation :
    (∀ (t u : Table) (n : Nat), Rect t n → prepareE t = Except.ok u →
      Rect u n ∧ nRows u = nRows t) ∧
    (∀ (t : Table) (k : Nat),
      prepareE (rowTake k t) = (prepareE t).map (rowTake k)) ∧
    (∀ (t : Table) (k : Nat),
      prepareE (rowDrop k t) = (prepareE t).map (rowDrop k)) := by
  refine ⟨?_, ?_, ?_⟩
  · intro t u n hr hok
    have hu : Rect u n := prep_rect t u n hr hok
    obtain ⟨faw, fpd, dad, dpd, afu, pfu, aae, aef, e1, e2, e3, e4, e5, e6, e7, e8,
      d1, d2, d3, d4, d5, d6, d7, d8, hother⟩ := prep_ok_spec t u hok
    have hune : u ≠ [] := findCol_some_ne_nil u _ _ d1
    have htne : t ≠ [] := by
      have hx := prep_hasCol t u hok "FSD Actual Walkthrough Date" (by decide)
      cases t with
      | nil => cases hx
      | cons p t => exact List.cons_ne_nil p t
    rw [nRows_eq_of_rect u n hu hune, nRows_eq_of_rect t n hr htne]
    exact ⟨hu, rfl⟩
  · intro t k
    exact prepareE_colwise (fun vs => vs.take k)
      (fun f vs => (List.map_take f vs k).symm)
      (fun f a b => List.take_zipWith) t
  · intro t k
    exact prepareE_colwise (fun vs => vs.drop k)
      (fun f vs => (List.map_drop f vs k).symm)
      (fun f a b => List.drop_zipWith) t

/-- Witness for C7 at the one-row table `tblA`. -/
theorem c7_row_preservation_witness :
    Rect (load_data (Except.ok tblA)).table 1 ∧
    nRows (load_data (Except.ok tblA)).table = nRows tblA :=
  c7_row_preservation.1 tblA ((load_data (Except.ok tblA)).table) 1
    (by unfold Rect; decide) rfl

end Wricef
